import Mathlib

/-!
Verification of the event-isolation and clean-record pipeline
(`create_clean_json.py`, `isolate_events.py`, and the phase-3 loop of
`main.py`) against its natural-language specification.

JSON scalar values are modelled by `JVal`; JSON objects that the code
manipulates key-by-key are modelled as association lists
`List (String × JVal)` with unique-key dictionary semantics.
-/

/-- A JSON scalar value carried opaquely through the pipeline. -/
inductive JVal where
  | null : JVal
  | s (v : String) : JVal
  | n (v : Int) : JVal
  | b (v : Bool) : JVal
deriving DecidableEq, Repr

/-- `d.get(k)` on a Python dict modelled as an association list. -/
def dictGet (d : List (String × JVal)) (k : String) : Option JVal :=
  (d.find? (fun p => p.1 = k)).map (·.2)

/-- `d.pop(k, None)`: remove the key `k` from the dict. -/
def dictPop (d : List (String × JVal)) (k : String) : List (String × JVal) :=
  d.filter (fun p => p.1 ≠ k)

/-- One raw event as consumed by `create_clean_json.py`: the fields the
script reads, each `Option` because Python uses `.get` / key tests.
`user_properties = none` stands for "absent or not a dict", which the
script treats identically. -/
structure RawEvent where
  event_type : Option JVal
  event_time : Option JVal
  event_properties : Option (List (String × JVal))
  user_properties : Option (List (String × JVal))
  country : Option JVal
  language : Option JVal
deriving DecidableEq, Repr

/-- `user_data` of a clean record (`extract_user_data` output). -/
structure UserData where
  user_id : String
  country : Option JVal
  language : Option JVal
  af_status : Option JVal
  cohort_data : List (String × JVal)
deriving DecidableEq, Repr

/-- One cleaned event (`process_event` output). `user_properties = none`
means the key is absent from the emitted object. -/
structure CleanEvent where
  event_type : Option JVal
  event_time : Option JVal
  event_properties : List (String × JVal)
  user_properties : Option (List (String × JVal))
deriving DecidableEq, Repr

/-- The clean per-user record built by `process_user_file`. -/
structure CleanRecord where
  user_data : UserData
  events : List CleanEvent
  total_events : Nat
deriving DecidableEq, Repr

/-- The four cohort keys grouped into `user_data.cohort_data`. -/
def cohort_fields : List String :=
  ["cohort_month", "cohort_year", "cohort_day", "cohort_week"]

/-- The five keys `process_event` strips from `user_properties`. -/
def fields_to_remove : List String :=
  ["af_status", "cohort_month", "cohort_year", "cohort_day", "cohort_week"]

/-- `extract_user_data(first_event, user_id)` of `create_clean_json.py`:
pulls `country`/`language` directly, `af_status` and the cohort keys from
`user_properties` when that is a dict. -/
def extract_user_data (first_event : RawEvent) (user_id : String) : UserData :=
  { user_id := user_id
    country := first_event.country
    language := first_event.language
    af_status :=
      match first_event.user_properties with
      | some props => dictGet props "af_status"
      | none => none
    cohort_data :=
      match first_event.user_properties with
      | some props => cohort_fields.filterMap (fun f => (dictGet props f).map (fun v => (f, v)))
      | none => [] }

/-- `process_event(event)` of `create_clean_json.py`: keep
`event_type`/`event_time`/`event_properties` (defaulting the last to `{}`),
strip the five grouped keys from `user_properties` and keep that key only
when something remains. -/
def process_event (event : RawEvent) : CleanEvent :=
  { event_type := event.event_type
    event_time := event.event_time
    event_properties := event.event_properties.getD []
    user_properties :=
      match event.user_properties with
      | some props =>
          let remaining := fields_to_remove.foldl dictPop props
          if remaining.isEmpty then none else some remaining
      | none => none }

/-- The filtering test inlined in `process_user_file`: an event is kept
when the allow-list is empty, otherwise when its `event_type` is a member
of the allow-list (a non-string or missing `event_type` is never a member). -/
def should_keep (event_type : Option JVal) (include_events : List String) : Bool :=
  include_events.isEmpty ||
    match event_type with
    | some (JVal.s t) => include_events.contains t
    | _ => false

/-- The pure core of `process_user_file(user_file, include_events)` of
`create_clean_json.py`, after the file has been read and the user id taken
from the filename: returns `none` when there are no events or no event
survives filtering, otherwise the clean record whose `user_data` comes from
the first raw event. -/
def process_user_file (events : List RawEvent) (user_id : String)
    (include_events : List String) : Option CleanRecord :=
  match events with
  | [] => none
  | first :: _ =>
    let processed_events :=
      (events.filter (fun e => should_keep e.event_type include_events)).map process_event
    if processed_events.isEmpty then none
    else some
      { user_data := extract_user_data first user_id
        events := processed_events
        total_events := processed_events.length }

example :
    process_user_file
      [{ event_type := some (JVal.s "X"), event_time := some (JVal.s "t1"),
         event_properties := none,
         user_properties := some [("af_status", JVal.s "organic"), ("cohort_month", JVal.s "2025-01")],
         country := some (JVal.s "US"), language := none }] "u1" [] =
    some
      { user_data :=
          { user_id := "u1", country := some (JVal.s "US"), language := none,
            af_status := some (JVal.s "organic"),
            cohort_data := [("cohort_month", JVal.s "2025-01")] }
        events :=
          [{ event_type := some (JVal.s "X"), event_time := some (JVal.s "t1"),
             event_properties := [], user_properties := none }]
        total_events := 1 } := by decide

/-- The parsed JSON object of one clean file as read by
`isolate_user_events`: `events = none` models a missing `events` key,
`user_data = none` a missing `user_data` key (its access then raises and
is caught by the function's `except`). -/
structure FileData where
  events : Option (List CleanEvent)
  user_data : Option (List (String × JVal))
deriving DecidableEq, Repr

/-- One input file of the isolation stage: either its content could not be
read or parsed (the open/`json.load` raises), or it parsed to a `FileData`. -/
inductive FileInput where
  | unreadable : FileInput
  | parsed (data : FileData) : FileInput
deriving DecidableEq, Repr

/-- The `isolated_data` object written by `isolate_user_events`. -/
structure IsolatedRecord where
  user_data : List (String × JVal)
  isolation_event : String
  isolation_date : Option JVal
  events_before_isolation : Nat
  events_after_isolation : Nat
  events : List CleanEvent
  total_events : Nat
deriving DecidableEq, Repr

/-- Result of `isolate_user_events`: the returned triple
`(success, isolated_events_count, total_events_count)`, with the isolated
record carried along on success. -/
inductive IsolateOutcome where
  | success (record : IsolatedRecord) (isolated_count : Nat) (total_count : Nat)
  | failure (isolated_count : Nat) (total_count : Nat)
deriving DecidableEq, Repr

/-- The `(success, isolated, total)` triple actually returned to the caller. -/
def isolate_triple : IsolateOutcome → Bool × Nat × Nat
  | IsolateOutcome.success _ i t => (true, i, t)
  | IsolateOutcome.failure i t => (false, i, t)

/-- The linear scan of `isolate_user_events`: index of the first event with
`event_type` equal to the isolation event, `none` when no event matches. -/
def findIsolationIndex (isolation_event : String) : List CleanEvent → Option Nat
  | [] => none
  | e :: rest =>
    if e.event_type = some (JVal.s isolation_event) then some 0
    else (findIsolationIndex isolation_event rest).map (· + 1)

/-- `isolate_user_events(file_path, isolation_event)` of `isolate_events.py`.
Failure cases follow the source in order: unreadable file, missing or empty
`events`, isolation event not found; after a match, the accesses
`data['user_data']` and `['user_id']` raise (caught, giving `(False, 0, 0)`)
when those keys are missing. -/
def isolate_user_events (input : FileInput) (isolation_event : String) : IsolateOutcome :=
  match input with
  | FileInput.unreadable => IsolateOutcome.failure 0 0
  | FileInput.parsed data =>
    match data.events with
    | none => IsolateOutcome.failure 0 0
    | some events =>
      if events.isEmpty then IsolateOutcome.failure 0 0
      else
      let total_events := events.length
      match findIsolationIndex isolation_event events with
      | none => IsolateOutcome.failure 0 total_events
      | some isolation_index =>
        let isolated_events := events.drop isolation_index
        match data.user_data with
        | none => IsolateOutcome.failure 0 0
        | some ud =>
          match dictGet ud "user_id" with
          | none => IsolateOutcome.failure 0 0
          | some _ =>
            IsolateOutcome.success
              { user_data := ud
                isolation_event := isolation_event
                isolation_date :=
                  match isolated_events with
                  | [] => none
                  | e :: _ => e.event_time
                events_before_isolation := isolation_index
                events_after_isolation := isolated_events.length
                events := isolated_events
                total_events := isolated_events.length }
              isolated_events.length total_events

/-- Accumulated counters of the batch loop in `main()` of
`isolate_events.py`. -/
structure BatchSummary where
  files_processed : Nat
  successful_isolations : Nat
  files_without_event : Nat
  total_events_before : Nat
  total_events_after : Nat
deriving DecidableEq, Repr

/-- One iteration of the batch loop of `isolate_events.py`: on success all
three totals grow; on failure only `files_without_event`, and only when the
reported total count is positive. -/
def batchStep (isolation_event : String) (acc : BatchSummary) (input : FileInput) :
    BatchSummary :=
  match isolate_triple (isolate_user_events input isolation_event) with
  | (true, isolated_count, total_count) =>
    { acc with
      files_processed := acc.files_processed + 1
      successful_isolations := acc.successful_isolations + 1
      total_events_before := acc.total_events_before + total_count
      total_events_after := acc.total_events_after + isolated_count }
  | (false, _, total_count) =>
    { acc with
      files_processed := acc.files_processed + 1
      files_without_event := acc.files_without_event + (if 0 < total_count then 1 else 0) }

/-- The batch loop of `main()` in `isolate_events.py` over the clean files,
starting from all-zero counters. -/
def run_batch (inputs : List FileInput) (isolation_event : String) : BatchSummary :=
  inputs.foldl (batchStep isolation_event) ⟨0, 0, 0, 0, 0⟩

/-- The structured not-found notice object written by the phase-3 loop of
`main.py` when isolation fails for a user. -/
structure NotFoundNotice where
  user_id : String
  isolation_event : String
  status : String
  message : String
  total_events_in_user_data : Nat
  available_events : List String
deriving DecidableEq, Repr

/-- What the phase-3 loop of `main.py` writes for one user. -/
inductive MainArtifact where
  | isolated (record : IsolatedRecord) : MainArtifact
  | notice (n : NotFoundNotice) : MainArtifact
deriving DecidableEq, Repr

/-- Per-record action of the phase-3 loop of `main.py`: on success the
isolated record (written by `isolate_user_events` itself) stands; on
failure a structured `event_not_found` notice is written instead, carrying
the returned total count and the pre-scanned available event types. -/
def main_process_record (user_id : String) (input : FileInput)
    (isolation_event : String) (available_events : List String) : MainArtifact :=
  match isolate_user_events input isolation_event with
  | IsolateOutcome.success record _ _ => MainArtifact.isolated record
  | IsolateOutcome.failure _ total_count =>
    MainArtifact.notice
      { user_id := user_id
        isolation_event := isolation_event
        status := "event_not_found"
        message := "Optimization based on \x27" ++ isolation_event ++
          "\x27 is not possible, as the event is not present in that user log"
        total_events_in_user_data := total_count
        available_events := available_events }

/-- A sample clean event used in concrete checks. -/
def sampleEvent (t : String) : CleanEvent :=
  { event_type := some (JVal.s t), event_time := some (JVal.s ("time_" ++ t)),
    event_properties := [], user_properties := none }

example :
    isolate_triple (isolate_user_events
      (FileInput.parsed
        { events := some [sampleEvent "A", sampleEvent "B", sampleEvent "C", sampleEvent "D"],
          user_data := some [("user_id", JVal.s "u1")] }) "C") = (true, 2, 4) := by decide

example :
    isolate_triple (isolate_user_events
      (FileInput.parsed
        { events := some [sampleEvent "A", sampleEvent "B"],
          user_data := some [("user_id", JVal.s "u1")] }) "Z") = (false, 0, 2) := by decide

/-! Helper lemmas about the linear scan. -/

theorem findIsolationIndex_eq_some (a : String) (es : List CleanEvent) (k : Nat)
    (hk : k < es.length)
    (hmatch : (es.get ⟨k, hk⟩).event_type = some (JVal.s a))
    (hmin : ∀ j (hj : j < es.length), j < k → (es.get ⟨j, hj⟩).event_type ≠ some (JVal.s a)) :
    findIsolationIndex a es = some k := by
  induction es generalizing k with
  | nil => simp at hk
  | cons e rest ih =>
    by_cases he : e.event_type = some (JVal.s a)
    · have hk0 : k = 0 := by
        by_contra hne
        exact hmin 0 (by simp) (Nat.pos_of_ne_zero hne) he
      subst hk0
      simp [findIsolationIndex, he]
    · have hkpos : 0 < k := by
        rcases Nat.eq_zero_or_pos k with h0 | h
        · subst h0; simp only [List.get] at hmatch; exact absurd hmatch he
        · exact h
      obtain ⟨k', rfl⟩ : ∃ k', k = k' + 1 := ⟨k - 1, by omega⟩
      have hk' : k' < rest.length := by simpa using hk
      have hmatch' : (rest.get ⟨k', hk'⟩).event_type = some (JVal.s a) := hmatch
      have hmin' : ∀ j (hj : j < rest.length), j < k' →
          (rest.get ⟨j, hj⟩).event_type ≠ some (JVal.s a) := by
        intro j hj hjk
        have := hmin (j + 1) (by simpa using Nat.succ_lt_succ hj) (Nat.succ_lt_succ hjk)
        exact this
      simp [findIsolationIndex, he, ih k' hk' hmatch' hmin']

theorem findIsolationIndex_drop (a : String) (es : List CleanEvent) (k : Nat)
    (h : findIsolationIndex a es = some k) :
    ∃ e rest, es.drop k = e :: rest ∧ e.event_type = some (JVal.s a) := by
  induction es generalizing k with
  | nil => simp [findIsolationIndex] at h
  | cons e rest ih =>
    by_cases he : e.event_type = some (JVal.s a)
    · simp [findIsolationIndex, he] at h
      subst h
      exact ⟨e, rest, rfl, he⟩
    · simp [findIsolationIndex, he] at h
      obtain ⟨k', hk', rfl⟩ := h
      simpa using ih k' hk'

theorem findIsolationIndex_lt_length (a : String) (es : List CleanEvent) (k : Nat)
    (h : findIsolationIndex a es = some k) : k < es.length := by
  induction es generalizing k with
  | nil => simp [findIsolationIndex] at h
  | cons e rest ih =>
    by_cases he : e.event_type = some (JVal.s a)
    · simp [findIsolationIndex, he] at h
      subst h; simp
    · simp [findIsolationIndex, he] at h
      obtain ⟨k', hk', rfl⟩ := h
      have := ih k' hk'
      simp
      omega

theorem findIsolationIndex_eq_none (a : String) (es : List CleanEvent)
    (h : ∀ e ∈ es, e.event_type ≠ some (JVal.s a)) :
    findIsolationIndex a es = none := by
  induction es with
  | nil => rfl
  | cons e rest ih =>
    have he : e.event_type ≠ some (JVal.s a) := h e (by simp)
    simp [findIsolationIndex, he, ih (fun x hx => h x (by simp [hx]))]

/-- C5: with an empty allow-list every event is kept: a non-empty raw
sequence builds a clean record whose events are exactly the
`process_event` (field-reduction) images of the raw events, in the same
order and of the same length. -/
theorem clean_record_empty_allowlist (events : List RawEvent) (user_id : String)
    (hne : events ≠ []) :
    ∃ r, process_user_file events user_id [] = some r ∧
      r.events = events.map process_event ∧
      r.events.length = events.length := by
  cases events with
  | nil => exact absurd rfl hne
  | cons first rest =>
    have hfilter : (first :: rest).filter (fun e => should_keep e.event_type []) =
        first :: rest :=
      List.filter_eq_self.mpr (fun a _ => rfl)
    refine ⟨{ user_data := extract_user_data first user_id,
              events := (first :: rest).map process_event,
              total_events := ((first :: rest).map process_event).length }, ?_, rfl, by simp⟩
    simp [process_user_file, hfilter]

/-- Witness for C5 on a concrete two-event raw sequence. -/
theorem clean_record_empty_allowlist_witness :
    ∃ r, process_user_file
      [{ event_type := some (JVal.s "X"), event_time := some (JVal.s "t1"),
         event_properties := none, user_properties := none,
         country := some (JVal.s "US"), language := none },
       { event_type := some (JVal.s "Y"), event_time := some (JVal.s "t2"),
         event_properties := none, user_properties := none,
         country := none, language := none }] "u9" [] = some r ∧
      r.events =
        [{ event_type := some (JVal.s "X"), event_time := some (JVal.s "t1"),
           event_properties := none, user_properties := none,
           country := some (JVal.s "US"), language := none },
         { event_type := some (JVal.s "Y"), event_time := some (JVal.s "t2"),
           event_properties := none, user_properties := none,
           country := none, language := none }].map process_event ∧
      r.events.length = 2 :=
  clean_record_empty_allowlist
    [{ event_type := some (JVal.s "X"), event_time := some (JVal.s "t1"),
       event_properties := none, user_properties := none,
       country := some (JVal.s "US"), language := none },
     { event_type := some (JVal.s "Y"), event_time := some (JVal.s "t2"),
       event_properties := none, user_properties := none,
       country := none, language := none }] "u9" (by decide)

/-- C6: `should_keep` keeps everything when the allow-list is empty and
otherwise keeps exactly the events whose `event_type` is a string member
of the allow-list (exact, case-sensitive); consequently, with a non-empty
allow-list, every event of a built record has an allowed `event_type` and
the built events are a subsequence of the field-reduced input sequence. -/
theorem filter_semantics (et : Option JVal) (allow : List String)
    (events : List RawEvent) (user_id : String) (r : CleanRecord) :
    should_keep et [] = true ∧
    (allow ≠ [] → (should_keep et allow = true ↔
      ∃ s, et = some (JVal.s s) ∧ s ∈ allow)) ∧
    (process_user_file events user_id allow = some r → allow ≠ [] →
      (∀ e ∈ r.events, ∃ s, e.event_type = some (JVal.s s) ∧ s ∈ allow) ∧
      r.events.Sublist (events.map process_event)) := by
  have keep_iff : ∀ (et' : Option JVal), allow ≠ [] →
      (should_keep et' allow = true ↔ ∃ s, et' = some (JVal.s s) ∧ s ∈ allow) := by
    intro et' hallow
    have hemp : allow.isEmpty = false := by
      cases allow with
      | nil => exact absurd rfl hallow
      | cons x xs => rfl
    cases et' with
    | none => simp [should_keep, hemp]
    | some v =>
      cases v with
      | null => simp [should_keep, hemp]
      | s t => simp [should_keep, hemp]
      | n m => simp [should_keep, hemp]
      | b bv => simp [should_keep, hemp]
  refine ⟨rfl, keep_iff et, ?_⟩
  intro h hallow
  cases events with
  | nil => simp [process_user_file] at h
  | cons first rest =>
    rw [show process_user_file (first :: rest) user_id allow =
        (if (((first :: rest).filter (fun e => should_keep e.event_type allow)).map
              process_event).isEmpty then none
         else some
          { user_data := extract_user_data first user_id
            events := ((first :: rest).filter
              (fun e => should_keep e.event_type allow)).map process_event
            total_events := (((first :: rest).filter
              (fun e => should_keep e.event_type allow)).map process_event).length })
      from rfl] at h
    by_cases hemp :
        (((first :: rest).filter (fun e => should_keep e.event_type allow)).map
          process_event).isEmpty
    · simp [hemp] at h
    · simp [hemp] at h
      have hrev : r.events = ((first :: rest).filter
          (fun e => should_keep e.event_type allow)).map process_event := by
        rw [← h]
      constructor
      · intro e he
        rw [hrev] at he
        rw [List.mem_map] at he
        obtain ⟨raw, hraw, hre⟩ := he
        rw [List.mem_filter] at hraw
        have hkeep := (keep_iff raw.event_type hallow).mp hraw.2
        have het : e.event_type = raw.event_type := by rw [← hre]; rfl
        rw [het]
        exact hkeep
      · rw [hrev]
        exact List.Sublist.map process_event (List.filter_sublist _)

/-- A raw event typed `X` with no other fields, used in witnesses. -/
def rawX1 : RawEvent :=
  { event_type := some (JVal.s "X"), event_time := none, event_properties := none,
    user_properties := none, country := none, language := none }

/-- A raw event typed `Y` with no other fields, used in witnesses. -/
def rawY1 : RawEvent :=
  { event_type := some (JVal.s "Y"), event_time := none, event_properties := none,
    user_properties := none, country := none, language := none }

/-- A raw event typed `X` carrying a timestamp, used in witnesses. -/
def rawX2 : RawEvent :=
  { event_type := some (JVal.s "X"), event_time := some (JVal.s "t3"),
    event_properties := none, user_properties := none, country := none, language := none }

/-- The clean record built from `[rawX1, rawY1, rawX2]` with allow-list `[X]`. -/
def demoCleanXX : CleanRecord :=
  { user_data := { user_id := "u7", country := none, language := none,
                   af_status := none, cohort_data := [] }
    events :=
      [{ event_type := some (JVal.s "X"), event_time := none,
         event_properties := [], user_properties := none },
       { event_type := some (JVal.s "X"), event_time := some (JVal.s "t3"),
         event_properties := [], user_properties := none }]
    total_events := 2 }

/-- Witness for C6 at a concrete event and the spec's fourth example shape:
allow-list `[X]` over raw events typed `X, Y, X`. -/
theorem filter_semantics_witness :
    should_keep (some (JVal.s "X")) [] = true ∧
    (should_keep (some (JVal.s "X")) ["X"] = true ↔
      ∃ s, some (JVal.s "X") = some (JVal.s s) ∧ s ∈ ["X"]) ∧
    ((∀ e ∈ demoCleanXX.events, ∃ s, e.event_type = some (JVal.s s) ∧ s ∈ ["X"]) ∧
      demoCleanXX.events.Sublist ([rawX1, rawY1, rawX2].map process_event)) :=
  ⟨(filter_semantics (some (JVal.s "X")) ["X"] [rawX1, rawY1, rawX2] "u7" demoCleanXX).1,
   (filter_semantics (some (JVal.s "X")) ["X"] [rawX1, rawY1, rawX2] "u7"
      demoCleanXX).2.1 (by decide),
   (filter_semantics (some (JVal.s "X")) ["X"] [rawX1, rawY1, rawX2] "u7"
      demoCleanXX).2.2 (by decide) (by decide)⟩

/-- C7: user-level attributes do not depend on the allow-list: the
`user_data` of any built record is `extract_user_data` of the first raw
unfiltered event, so two builds over the same raw events with any two
allow-lists that both produce records produce identical `user_data`. -/
theorem user_data_allowlist_invariant (events : List RawEvent) (user_id : String)
    (allow1 allow2 : List String) (r1 r2 : CleanRecord)
    (h1 : process_user_file events user_id allow1 = some r1)
    (h2 : process_user_file events user_id allow2 = some r2) :
    r1.user_data = r2.user_data ∧
    ∀ first rest, events = first :: rest →
      r1.user_data = extract_user_data first user_id := by
  have key : ∀ (allow : List String) (r : CleanRecord),
      process_user_file events user_id allow = some r →
      ∀ first rest, events = first :: rest →
        r.user_data = extract_user_data first user_id := by
    intro allow r h first rest hev
    subst hev
    rw [show process_user_file (first :: rest) user_id allow =
        (if (((first :: rest).filter (fun e => should_keep e.event_type allow)).map
              process_event).isEmpty then none
         else some
          { user_data := extract_user_data first user_id
            events := ((first :: rest).filter
              (fun e => should_keep e.event_type allow)).map process_event
            total_events := (((first :: rest).filter
              (fun e => should_keep e.event_type allow)).map process_event).length })
      from rfl] at h
    by_cases hemp :
        (((first :: rest).filter (fun e => should_keep e.event_type allow)).map
          process_event).isEmpty
    · simp [hemp] at h
    · simp [hemp] at h
      rw [← h]
  cases events with
  | nil => simp [process_user_file] at h1
  | cons first rest =>
    have k1 := key allow1 r1 h1 first rest rfl
    have k2 := key allow2 r2 h2 first rest rfl
    refine ⟨k1.trans k2.symm, ?_⟩
    intro f rs hfr
    have hf : first = f := ((List.cons.injEq first rest f rs).mp hfr).1
    rw [← hf]
    exact k1

/-- A raw event typed `X` with a country field, used in witnesses. -/
def rawDE : RawEvent :=
  { event_type := some (JVal.s "X"), event_time := none, event_properties := none,
    user_properties := none, country := some (JVal.s "DE"), language := none }

/-- The clean record built from `[rawDE, rawY1]` with the empty allow-list. -/
def demoCleanBoth : CleanRecord :=
  { user_data := { user_id := "u5", country := some (JVal.s "DE"), language := none,
                   af_status := none, cohort_data := [] }
    events :=
      [{ event_type := some (JVal.s "X"), event_time := none,
         event_properties := [], user_properties := none },
       { event_type := some (JVal.s "Y"), event_time := none,
         event_properties := [], user_properties := none }]
    total_events := 2 }

/-- The clean record built from `[rawDE, rawY1]` with allow-list `[Y]`. -/
def demoCleanOnlyY : CleanRecord :=
  { user_data := { user_id := "u5", country := some (JVal.s "DE"), language := none,
                   af_status := none, cohort_data := [] }
    events :=
      [{ event_type := some (JVal.s "Y"), event_time := none,
         event_properties := [], user_properties := none }]
    total_events := 1 }

/-- Witness for C7: the same two-event raw sequence cleaned with the empty
allow-list and with `[Y]` yields the same `user_data`, which is
`extract_user_data` of the first raw event. -/
theorem user_data_allowlist_invariant_witness :
    demoCleanBoth.user_data = demoCleanOnlyY.user_data ∧
    demoCleanBoth.user_data = extract_user_data rawDE "u5" :=
  ⟨(user_data_allowlist_invariant [rawDE, rawY1] "u5" [] ["Y"] demoCleanBoth demoCleanOnlyY
      (by decide) (by decide)).1,
   (user_data_allowlist_invariant [rawDE, rawY1] "u5" [] ["Y"] demoCleanBoth demoCleanOnlyY
      (by decide) (by decide)).2 rawDE [rawY1] rfl⟩

/-- Success flag of the triple returned for one input file. -/
def record_success (a : String) (inp : FileInput) : Bool :=
  (isolate_triple (isolate_user_events inp a)).1

/-- Isolated-events count of the triple returned for one input file. -/
def record_isolated (a : String) (inp : FileInput) : Nat :=
  (isolate_triple (isolate_user_events inp a)).2.1

/-- Total-events count of the triple returned for one input file. -/
def record_total (a : String) (inp : FileInput) : Nat :=
  (isolate_triple (isolate_user_events inp a)).2.2

/-- What one record adds to `total_events_before` in the loop of
`isolate_events.py`: its total count, but only on success. -/
def contrib_before (a : String) (inp : FileInput) : Nat :=
  if record_success a inp then record_total a inp else 0

/-- What one record adds to `total_events_after`: its isolated count, only
on success. -/
def contrib_after (a : String) (inp : FileInput) : Nat :=
  if record_success a inp then record_isolated a inp else 0

/-- Whether one record is counted in `files_without_event`: a failure whose
reported total count is positive. -/
def record_without_event (a : String) (inp : FileInput) : Bool :=
  !record_success a inp && decide (0 < record_total a inp)

/-- The remaining bucket: a failure whose reported total count is zero
(empty events, or an exception swallowed into `(False, 0, 0)`). -/
def record_no_data (a : String) (inp : FileInput) : Bool :=
  !record_success a inp && decide (record_total a inp = 0)

theorem run_batch_foldl (a : String) (inputs : List FileInput) (acc : BatchSummary) :
    inputs.foldl (batchStep a) acc =
      { files_processed := acc.files_processed + inputs.length
        successful_isolations := acc.successful_isolations + inputs.countP (record_success a)
        files_without_event := acc.files_without_event + inputs.countP (record_without_event a)
        total_events_before := acc.total_events_before + (inputs.map (contrib_before a)).sum
        total_events_after := acc.total_events_after + (inputs.map (contrib_after a)).sum } := by
  induction inputs generalizing acc with
  | nil => simp
  | cons i rest ih =>
    rw [List.foldl_cons, ih]
    rcases htrip : isolate_triple (isolate_user_events i a) with ⟨success, isolated, total⟩
    cases success <;>
      simp [batchStep, htrip, record_success, record_without_event, contrib_before,
        contrib_after, record_total, record_isolated, List.countP_cons] <;>
      omega

theorem countP_partition (a : String) (inputs : List FileInput) :
    inputs.countP (record_success a) + inputs.countP (record_without_event a) +
      inputs.countP (record_no_data a) = inputs.length := by
  induction inputs with
  | nil => simp
  | cons i rest ih =>
    cases hs : record_success a i
    · rcases Nat.eq_zero_or_pos (record_total a i) with h | h
      · simp [List.countP_cons, record_without_event, record_no_data, hs, h]
        omega
      · have hne : record_total a i ≠ 0 := Nat.pos_iff_ne_zero.mp h
        simp [List.countP_cons, record_without_event, record_no_data, hs, h, hne]
        omega
    · simp [List.countP_cons, record_without_event, record_no_data, hs]
      omega

theorem record_isolated_le_total (a : String) (inp : FileInput) :
    record_isolated a inp ≤ record_total a inp := by
  cases inp with
  | unreadable => simp [record_isolated, record_total, isolate_user_events, isolate_triple]
  | parsed data =>
    cases hev : data.events with
    | none => simp [record_isolated, record_total, isolate_user_events, hev, isolate_triple]
    | some es =>
      by_cases hne : es.isEmpty
      · simp [record_isolated, record_total, isolate_user_events, hev, hne, isolate_triple]
      · cases hfind : findIsolationIndex a es with
        | none =>
          simp [record_isolated, record_total, isolate_user_events, hev, hne, hfind,
            isolate_triple]
        | some k =>
          cases hud : data.user_data with
          | none =>
            simp [record_isolated, record_total, isolate_user_events, hev, hne, hfind, hud,
              isolate_triple]
          | some ud =>
            cases huid : dictGet ud "user_id" with
            | none =>
              simp [record_isolated, record_total, isolate_user_events, hev, hne, hfind, hud,
                huid, isolate_triple]
            | some uid =>
              simp [record_isolated, record_total, isolate_user_events, hev, hne, hfind, hud,
                huid, isolate_triple, List.length_drop]

theorem contrib_after_le_before (a : String) (inp : FileInput) :
    contrib_after a inp ≤ contrib_before a inp := by
  unfold contrib_after contrib_before
  cases record_success a inp with
  | false => simp
  | true => simpa using record_isolated_le_total a inp

/-- The accumulation rule claim C3 states for `total_events_before`,
written from the spec's words for comparison with `run_batch`: every
processed record contributes its pre-isolation total event count — the
clean record's total for AnchorFound and for AnchorNotFound alike, 0 for
NoEvents. -/
def claimed_total_events_before (inputs : List FileInput) (a : String) : Nat :=
  (inputs.map (record_total a)).sum

/-- Counterexample to C3 as stated: one record `[A]` with anchor `Z` is an
AnchorNotFound outcome, so the claim says it contributes its total 1, but
the loop of `isolate_events.py` leaves `total_events_before` at 0 (the
total is added only on success). -/
theorem batch_total_before_counterexample :
    (run_batch
      [FileInput.parsed { events := some [sampleEvent "A"],
                          user_data := some [("user_id", JVal.s "u")] }] "Z").total_events_before
      = 0 ∧
    claimed_total_events_before
      [FileInput.parsed { events := some [sampleEvent "A"],
                          user_data := some [("user_id", JVal.s "u")] }] "Z" = 1 := by decide

/-- C3 (amended): in the batch summary of `isolate_events.py`,
`total_events_before` is the sum of the pre-isolation totals of the
AnchorFound records only; AnchorNotFound and NoEvents records contribute 0. -/
theorem batch_total_before (inputs : List FileInput) (a : String) :
    (run_batch inputs a).total_events_before = (inputs.map (contrib_before a)).sum := by
  rw [run_batch, run_batch_foldl]
  simp

/-- C4: batch summary invariants of `isolate_events.py`:
`files_processed = successful_isolations + files_without_event + no_data`
where the `no_data` bucket counts the failures whose reported total is
zero (records with no events), `total_events_after ≤ total_events_before`,
and a parsed record is counted in `files_without_event` exactly when it
had at least one event and the scan found no anchor (an AnchorNotFound
outcome). -/
theorem batch_summary_invariants (inputs : List FileInput) (a : String) :
    ((run_batch inputs a).files_processed =
      (run_batch inputs a).successful_isolations +
        (run_batch inputs a).files_without_event + inputs.countP (record_no_data a)) ∧
    (run_batch inputs a).total_events_after ≤ (run_batch inputs a).total_events_before ∧
    (∀ data es, data.events = some es →
      (record_without_event a (FileInput.parsed data) = true ↔
        es ≠ [] ∧ findIsolationIndex a es = none)) := by
  refine ⟨?_, ?_, ?_⟩
  · rw [run_batch, run_batch_foldl]
    simp only
    have := countP_partition a inputs
    omega
  · rw [run_batch, run_batch_foldl]
    simp only [Nat.zero_add]
    exact List.sum_le_sum (fun i _ => contrib_after_le_before a i)
  · intro data es hev
    by_cases hne : es.isEmpty
    · have hes : es = [] := List.isEmpty_iff.mp hne
      subst hes
      simp [record_without_event, record_success, record_total, isolate_user_events, hev,
        isolate_triple]
    · have hes : es ≠ [] := by
        intro h
        subst h
        simp at hne
      cases hfind : findIsolationIndex a es with
      | none =>
        have hlen : 0 < es.length := List.length_pos.mpr hes
        simp [record_without_event, record_success, record_total, isolate_user_events, hev,
          hne, hfind, isolate_triple, hes, hlen]
      | some k =>
        cases hud : data.user_data with
        | none =>
          simp [record_without_event, record_success, record_total, isolate_user_events, hev,
            hne, hfind, hud, isolate_triple]
        | some ud =>
          cases huid : dictGet ud "user_id" with
          | none =>
            simp [record_without_event, record_success, record_total, isolate_user_events, hev,
              hne, hfind, hud, huid, isolate_triple]
          | some uid =>
            simp [record_without_event, record_success, record_total, isolate_user_events, hev,
              hne, hfind, hud, huid, isolate_triple]

/-- A small concrete batch used by witnesses: one AnchorFound record, one
AnchorNotFound record, one empty record, one unreadable file. -/
def demoInputs : List FileInput :=
  [FileInput.parsed { events := some [sampleEvent "A", sampleEvent "B", sampleEvent "C"],
                      user_data := some [("user_id", JVal.s "u1")] },
   FileInput.parsed { events := some [sampleEvent "A"],
                      user_data := some [("user_id", JVal.s "u2")] },
   FileInput.parsed { events := some [], user_data := some [("user_id", JVal.s "u3")] },
   FileInput.unreadable]

/-- Witness for C4 on the concrete demo batch with anchor `C`. -/
theorem batch_summary_invariants_witness :
    ((run_batch demoInputs "C").files_processed =
      (run_batch demoInputs "C").successful_isolations +
        (run_batch demoInputs "C").files_without_event +
        demoInputs.countP (record_no_data "C")) ∧
    (run_batch demoInputs "C").total_events_after ≤
      (run_batch demoInputs "C").total_events_before ∧
    (record_without_event "C"
        (FileInput.parsed { events := some [sampleEvent "A"],
                            user_data := some [("user_id", JVal.s "u2")] }) = true ↔
      [sampleEvent "A"] ≠ [] ∧ findIsolationIndex "C" [sampleEvent "A"] = none) :=
  ⟨(batch_summary_invariants demoInputs "C").1,
   (batch_summary_invariants demoInputs "C").2.1,
   (batch_summary_invariants demoInputs "C").2.2
     { events := some [sampleEvent "A"], user_data := some [("user_id", JVal.s "u2")] }
     [sampleEvent "A"] rfl⟩

/-- C1: for a clean record whose events contain the anchor event type,
`isolate_user_events` succeeds at the lowest matching index `k`, producing
exactly the suffix `events[k:]` with `isolation_date = events[k].event_time`,
`events_before_isolation = k`,
`events_after_isolation = total_events = len(events) - k`, returning
`(success, len(events) - k, len(events))`; the first isolated event is
`events[k]`, whose `event_type` is the anchor. -/
theorem isolate_anchor_found (data : FileData) (es : List CleanEvent)
    (anchor : String) (k : Nat) (ud : List (String × JVal)) (uid : JVal)
    (hev : data.events = some es)
    (hk : k < es.length)
    (hmatch : (es.get ⟨k, hk⟩).event_type = some (JVal.s anchor))
    (hmin : ∀ j (hj : j < es.length), j < k →
      (es.get ⟨j, hj⟩).event_type ≠ some (JVal.s anchor))
    (hud : data.user_data = some ud)
    (huid : dictGet ud "user_id" = some uid) :
    isolate_user_events (FileInput.parsed data) anchor =
      IsolateOutcome.success
        { user_data := ud
          isolation_event := anchor
          isolation_date := (es.get ⟨k, hk⟩).event_time
          events_before_isolation := k
          events_after_isolation := es.length - k
          events := es.drop k
          total_events := es.length - k }
        (es.length - k) es.length ∧
    (es.drop k).head? = some (es.get ⟨k, hk⟩) ∧
    (es.get ⟨k, hk⟩).event_type = some (JVal.s anchor) := by
  have hfind := findIsolationIndex_eq_some anchor es k hk hmatch hmin
  have hne : es.isEmpty = false := by
    cases es with
    | nil => simp at hk
    | cons a l => rfl
  have hdrop : es.drop k = es.get ⟨k, hk⟩ :: es.drop (k + 1) := by
    simp only [List.get_eq_getElem]
    exact List.drop_eq_getElem_cons hk
  refine ⟨?_, by rw [hdrop]; rfl, hmatch⟩
  simp only [isolate_user_events, hev, hne, Bool.false_eq_true, if_false, hfind, hud, huid]
  rw [hdrop]
  simp [List.length_drop]

/-- Witness for C1 at the four-event record of the spec's first example
scenario: events `[A, B, C, D]` with anchor `C` at index 2. -/
theorem isolate_anchor_found_witness :
    isolate_user_events
      (FileInput.parsed
        { events := some [sampleEvent "A", sampleEvent "B", sampleEvent "C", sampleEvent "D"],
          user_data := some [("user_id", JVal.s "u1")] }) "C" =
      IsolateOutcome.success
        { user_data := [("user_id", JVal.s "u1")]
          isolation_event := "C"
          isolation_date := some (JVal.s "time_C")
          events_before_isolation := 2
          events_after_isolation := 2
          events := [sampleEvent "C", sampleEvent "D"]
          total_events := 2 }
        2 4 := by
  have h := isolate_anchor_found
    { events := some [sampleEvent "A", sampleEvent "B", sampleEvent "C", sampleEvent "D"],
      user_data := some [("user_id", JVal.s "u1")] }
    [sampleEvent "A", sampleEvent "B", sampleEvent "C", sampleEvent "D"]
    "C" 2 [("user_id", JVal.s "u1")] (JVal.s "u1")
    rfl (by decide) (by decide) (by decide) rfl (by decide)
  exact h.1

/-- C2: `isolate_user_events` reports both degenerate cases as ordinary
failure values, never an uncaught fault (the embedding is a total
function): an empty events list yields `(failure, 0, 0)` (NoEvents), and a
non-empty list containing no event typed by the anchor yields
`(failure, 0, len(events))` (AnchorNotFound). -/
theorem isolate_failure_cases (data : FileData) (anchor : String) :
    (data.events = some [] →
      isolate_triple (isolate_user_events (FileInput.parsed data) anchor) = (false, 0, 0)) ∧
    (∀ es, data.events = some es → es ≠ [] →
      (∀ e ∈ es, e.event_type ≠ some (JVal.s anchor)) →
      isolate_triple (isolate_user_events (FileInput.parsed data) anchor) =
        (false, 0, es.length)) := by
  constructor
  · intro hev
    simp [isolate_user_events, hev, isolate_triple]
  · intro es hev hne hnomatch
    have hfind := findIsolationIndex_eq_none anchor es hnomatch
    have hne' : es.isEmpty = false := by
      cases es with
      | nil => exact absurd rfl hne
      | cons a l => rfl
    simp [isolate_user_events, hev, hne', hfind, isolate_triple]

/-- Witness for C2: an empty record gives `(failure, 0, 0)`; the spec's
second example scenario (`[A, B]`, anchor `Z`) gives `(failure, 0, 2)`. -/
theorem isolate_failure_cases_witness :
    isolate_triple (isolate_user_events
      (FileInput.parsed { events := some [], user_data := some [("user_id", JVal.s "u")] })
      "Z") = (false, 0, 0) ∧
    isolate_triple (isolate_user_events
      (FileInput.parsed { events := some [sampleEvent "A", sampleEvent "B"],
                          user_data := some [("user_id", JVal.s "u")] })
      "Z") = (false, 0, 2) :=
  ⟨(isolate_failure_cases
      { events := some [], user_data := some [("user_id", JVal.s "u")] } "Z").1 rfl,
   (isolate_failure_cases
      { events := some [sampleEvent "A", sampleEvent "B"],
        user_data := some [("user_id", JVal.s "u")] } "Z").2
      [sampleEvent "A", sampleEvent "B"] rfl (by decide) (by decide)⟩


/-- C8: isolation is idempotent: whenever `isolate_user_events` succeeds
with isolated record `r`, running it again over `r.events` and `r.user_data`
with the same anchor finds the anchor at index 0 and succeeds with the very
same events, `events_before_isolation = 0` and `events_after_isolation`
equal to the isolated length. -/
theorem isolate_idempotent (input : FileInput) (anchor : String) (r : IsolatedRecord)
    (i t : Nat)
    (h : isolate_user_events input anchor = IsolateOutcome.success r i t) :
    isolate_user_events
      (FileInput.parsed { events := some r.events, user_data := some r.user_data }) anchor =
      IsolateOutcome.success
        { user_data := r.user_data
          isolation_event := anchor
          isolation_date := r.isolation_date
          events_before_isolation := 0
          events_after_isolation := r.events.length
          events := r.events
          total_events := r.events.length }
        r.events.length r.events.length := by
  cases input with
  | unreadable => simp [isolate_user_events] at h
  | parsed data =>
    cases hev : data.events with
    | none => simp [isolate_user_events, hev] at h
    | some es =>
      by_cases hne : es.isEmpty
      · simp [isolate_user_events, hev, hne] at h
      · cases hfind : findIsolationIndex anchor es with
        | none => simp [isolate_user_events, hev, hne, hfind] at h
        | some k =>
          cases hud : data.user_data with
          | none => simp [isolate_user_events, hev, hne, hfind, hud] at h
          | some ud =>
            cases huid : dictGet ud "user_id" with
            | none => simp [isolate_user_events, hev, hne, hfind, hud, huid] at h
            | some uid =>
              obtain ⟨e, rest, hdrop, hmatch⟩ := findIsolationIndex_drop anchor es k hfind
              simp only [isolate_user_events, hev, hne, Bool.false_eq_true, if_false,
                hfind, hud, huid, IsolateOutcome.success.injEq] at h
              obtain ⟨hr, hi, ht⟩ := h
              rw [hdrop] at hr
              subst hr
              simp [isolate_user_events, findIsolationIndex, hmatch, huid]

/-- Witness for C8: rerunning isolation on the isolated `[C, D]` suffix of
the `[A, B, C, D]` record keeps it unchanged with the anchor at index 0. -/
theorem isolate_idempotent_witness :
    isolate_user_events
      (FileInput.parsed
        { events := some [sampleEvent "C", sampleEvent "D"],
          user_data := some [("user_id", JVal.s "u1")] }) "C" =
      IsolateOutcome.success
        { user_data := [("user_id", JVal.s "u1")]
          isolation_event := "C"
          isolation_date := some (JVal.s "time_C")
          events_before_isolation := 0
          events_after_isolation := 2
          events := [sampleEvent "C", sampleEvent "D"]
          total_events := 2 }
        2 2 :=
  isolate_idempotent
    (FileInput.parsed
      { events := some [sampleEvent "A", sampleEvent "B", sampleEvent "C", sampleEvent "D"],
        user_data := some [("user_id", JVal.s "u1")] }) "C"
    { user_data := [("user_id", JVal.s "u1")]
      isolation_event := "C"
      isolation_date := some (JVal.s "time_C")
      events_before_isolation := 2
      events_after_isolation := 2
      events := [sampleEvent "C", sampleEvent "D"]
      total_events := 2 }
    2 4 (by decide)

/-- C9: when the anchor is not found in a clean record's non-empty events,
the phase-3 loop of `main.py` emits a structured `event_not_found` notice
carrying the user id, the requested isolation event, a message, the user's
total event count, and the available event types — not an isolated record. -/
theorem not_found_notice (user_id : String) (data : FileData) (es : List CleanEvent)
    (anchor : String) (avail : List String)
    (hev : data.events = some es) (hne : es ≠ [])
    (hnomatch : ∀ e ∈ es, e.event_type ≠ some (JVal.s anchor)) :
    main_process_record user_id (FileInput.parsed data) anchor avail =
      MainArtifact.notice
        { user_id := user_id
          isolation_event := anchor
          status := "event_not_found"
          message := "Optimization based on \x27" ++ anchor ++
            "\x27 is not possible, as the event is not present in that user log"
          total_events_in_user_data := es.length
          available_events := avail } := by
  have hfind := findIsolationIndex_eq_none anchor es hnomatch
  have hne' : es.isEmpty = false := by
    cases es with
    | nil => exact absurd rfl hne
    | cons x xs => rfl
  simp [main_process_record, isolate_user_events, hev, hne', hfind]

/-- Witness for C9 on the spec's second example scenario: events `[A, B]`,
anchor `Z`, two available event types. -/
theorem not_found_notice_witness :
    main_process_record "u2"
      (FileInput.parsed { events := some [sampleEvent "A", sampleEvent "B"],
                          user_data := some [("user_id", JVal.s "u2")] }) "Z" ["A", "B"] =
      MainArtifact.notice
        { user_id := "u2"
          isolation_event := "Z"
          status := "event_not_found"
          message := "Optimization based on \x27Z\x27 is not possible, as the event is not present in that user log"
          total_events_in_user_data := 2
          available_events := ["A", "B"] } :=
  not_found_notice "u2"
    { events := some [sampleEvent "A", sampleEvent "B"],
      user_data := some [("user_id", JVal.s "u2")] }
    [sampleEvent "A", sampleEvent "B"] "Z" ["A", "B"] rfl (by decide) (by decide)

/-- C10: a record whose processing raises — unreadable content, or a parsed
object where the anchor is found but `user_data` or its `user_id` key is
missing — returns the same `(failure, 0, 0)` triple as a record with an
empty events list, and any such input leaves every batch counter except
`files_processed` unchanged. -/
theorem malformed_record_indistinguishable (a : String) :
    isolate_triple (isolate_user_events FileInput.unreadable a) =
      isolate_triple (isolate_user_events
        (FileInput.parsed { events := some [], user_data := none }) a) ∧
    (∀ data es k, data.events = some es → findIsolationIndex a es = some k →
      data.user_data = none →
      isolate_triple (isolate_user_events (FileInput.parsed data) a) = (false, 0, 0)) ∧
    (∀ data es k ud, data.events = some es → findIsolationIndex a es = some k →
      data.user_data = some ud → dictGet ud "user_id" = none →
      isolate_triple (isolate_user_events (FileInput.parsed data) a) = (false, 0, 0)) ∧
    (∀ (inp : FileInput) (acc : BatchSummary),
      isolate_triple (isolate_user_events inp a) = (false, 0, 0) →
      batchStep a acc inp = { acc with files_processed := acc.files_processed + 1 }) := by
  refine ⟨by simp [isolate_user_events, isolate_triple], ?_, ?_, ?_⟩
  · intro data es k hev hfind hud
    have hk := findIsolationIndex_lt_length a es k hfind
    have hne : es.isEmpty = false := by
      cases es with
      | nil => simp at hk
      | cons x xs => rfl
    simp [isolate_user_events, hev, hne, hfind, hud, isolate_triple]
  · intro data es k ud hev hfind hud huid
    have hk := findIsolationIndex_lt_length a es k hfind
    have hne : es.isEmpty = false := by
      cases es with
      | nil => simp at hk
      | cons x xs => rfl
    simp [isolate_user_events, hev, hne, hfind, hud, huid, isolate_triple]
  · intro inp acc htrip
    simp [batchStep, htrip]

/-- Witness for C10: an unreadable file and a record missing `user_data`
despite a matched anchor both give `(failure, 0, 0)`, and one batch step on
the unreadable file only advances `files_processed`. -/
theorem malformed_record_indistinguishable_witness :
    (isolate_triple (isolate_user_events FileInput.unreadable "C") =
      isolate_triple (isolate_user_events
        (FileInput.parsed { events := some [], user_data := none }) "C")) ∧
    isolate_triple (isolate_user_events
      (FileInput.parsed { events := some [sampleEvent "C"], user_data := none }) "C") =
      (false, 0, 0) ∧
    isolate_triple (isolate_user_events
      (FileInput.parsed { events := some [sampleEvent "C"],
                          user_data := some [("device_id", JVal.s "d")] }) "C") =
      (false, 0, 0) ∧
    batchStep "C" ⟨3, 1, 1, 7, 4⟩ FileInput.unreadable = ⟨4, 1, 1, 7, 4⟩ :=
  ⟨(malformed_record_indistinguishable "C").1,
   (malformed_record_indistinguishable "C").2.1
     { events := some [sampleEvent "C"], user_data := none }
     [sampleEvent "C"] 0 rfl (by decide) rfl,
   (malformed_record_indistinguishable "C").2.2.1
     { events := some [sampleEvent "C"], user_data := some [("device_id", JVal.s "d")] }
     [sampleEvent "C"] 0 [("device_id", JVal.s "d")] rfl (by decide) rfl (by decide),
   (malformed_record_indistinguishable "C").2.2.2 FileInput.unreadable ⟨3, 1, 1, 7, 4⟩
     (by decide)⟩
